import Mathlib

/-!
Shallow embedding of the core of the rita-ens daemon and proofs about it.

The development covers the blockchain oracle (balance, nonce, net_version,
gas price and the derived thresholds), the operator fee manager, the node
identity type and the client exit switcher.  Machine integers of the source
(u16, u64, Uint256, Int256) are modelled as Nat or Int, with an explicit
modulus or fitting condition wherever an overflow or a lossy cast occurs in
the source.  Monotone clock instants are modelled as seconds, as Nat.
-/

namespace RitaEns

/-! ## Blockchain oracle: balance -/

/-- ZERO_WINDOW_TIME, the length in seconds of the window during which a full
node reporting a zero balance is trusted (300 s). -/
def ZERO_WINDOW_TIME : Nat := 300

/-- Embedding of blockchain_oracle::update_balance.  Balances are Uint256
values as Nat; zero_window is the instant a withdraw-all opened the window;
now is the instant the check runs.  When the cached balance is non-zero and
the node returned zero, the zero is accepted only inside an open window;
every other combination overwrites unconditionally. -/
def update_balance (zero_window : Option Nat) (now : Nat)
    (our_balance new_balance : Nat) : Nat :=
  let value := new_balance
  let zeroed := our_balance ≠ 0 ∧ value = 0
  if zeroed then
    match zero_window with
    | some time => if now - time ≤ ZERO_WINDOW_TIME then value else our_balance
    | none => our_balance
  else value

/-- Embedding of the balance path of the Update handler of BlockchainOracle.
The handler calls update_blockchain_info with zero_window set to
Some(Instant::now()) taken at handler time, ignoring the oracle actor field
zero_window that the ZeroWindowStart message maintains; that field is passed
here as oracle_zero_window only to document that it is unused. -/
def handle_update_balance (oracle_zero_window : Option Nat)
    (handler_now check_now : Nat) (our_balance new_balance : Nat) : Nat :=
  let _ := oracle_zero_window
  update_balance (some handler_now) check_now our_balance new_balance

/-! ## Blockchain oracle: gas price and thresholds -/

/-- The part of PaymentSettings written by update_gas_price. -/
structure GasUpdateResult where
  gas_price : Nat
  pay_threshold : Int
  close_threshold : Int
deriving Repr, DecidableEq

/-- Embedding of blockchain_oracle::update_gas_price.  The returned gas price
is raised by five percent (integer division by 20) and forced into the
configured band; the pay threshold is recomputed only when the resulting
Uint256 gas price fits a signed 256-bit integer (to_int256), and the close
threshold is minus four times the pay threshold. -/
def update_gas_price (new_gas_price min_gas max_gas dynamic_fee_multiplier : Nat)
    (old_pay_threshold : Int) : GasUpdateResult :=
  let value := new_gas_price + new_gas_price / 20
  let gas_price :=
    if value < min_gas then min_gas
    else if value > max_gas then max_gas
    else value
  let pay_threshold :=
    if gas_price < 2 ^ 255 then
      (21000 : Int) * (gas_price : Int) * (dynamic_fee_multiplier : Int)
    else old_pay_threshold
  let close_threshold := (-1 : Int) * 4 * pay_threshold
  ⟨gas_price, pay_threshold, close_threshold⟩

/-! ## Blockchain oracle: net_version -/

/-- Embedding of blockchain_oracle::get_net_version.  The argument
new_net_version is the u64 parse result of the string the node returned
(none when the parse fails).  A first successful parse latches the value; a
later disagreeing value is only logged at ERROR and the cache keeps its
value. -/
def get_net_version (net_version : Option Nat) (new_net_version : Option Nat) :
    Option Nat :=
  match new_net_version with
  | some net_id_num =>
    match net_version with
    | some v =>
      if v ≠ net_id_num then
        some v
      else
        some v
    | none => some net_id_num
  | none => net_version

/-! ## Blockchain oracle: nonce -/

/-- Embedding of blockchain_oracle::update_nonce: the cached nonce is
overwritten with the transaction count the node returned, unconditionally. -/
def update_nonce (transaction_count : Nat) (nonce : Nat) : Nat :=
  let _ := nonce
  transaction_count

/-! ## Operator fee manager -/

/-- Embedding of the payment decision in the Tick handler of
OperatorFeeManager.  Addresses are abstracted as Nat; operator_fee is a
Uint256 value as Nat; pay_threshold is the Int256 threshold; times are
seconds.  The result is the payment that gets signed and broadcast, as
(operator address, amount in wei), or none when no payment is formed.  The
amount is the absolute value of the pay threshold, computed by
pay_threshold.abs().to_uint256() in the source. -/
def operator_fee_tick (operator_address : Option Nat) (operator_fee : Nat)
    (pay_threshold : Int) (last_payment_time now : Nat) : Option (Nat × Nat) :=
  match operator_address with
  | none => none
  | some addr =>
    if operator_fee < 2 ^ 255 then
      let elapsed := now - last_payment_time
      let should_pay := ((elapsed : Int) * (operator_fee : Int)) > pay_threshold
      if should_pay then some (addr, pay_threshold.natAbs) else none
    else none

/-- Embedding of the SuccessfulPayment handler of OperatorFeeManager: the
high-water mark last_payment_time is set to the current instant. -/
def handle_successful_payment (now : Nat) : Nat :=
  now

/-! ## Identity -/

/-- Embedding of althea_types::Identity.  The mesh ip, ethereum address and
wireguard public key are abstracted as Nat; the nickname payload (a 32-byte
array string) is abstracted as Nat as well. -/
structure Identity where
  mesh_ip : Nat
  eth_address : Nat
  wg_public_key : Nat
  nickname : Option Nat
deriving Repr, DecidableEq

/-- Embedding of the PartialEq instance of Identity: equality over the triple
only, the nickname does not participate. -/
def identityEq (a b : Identity) : Bool :=
  a.mesh_ip == b.mesh_ip && a.eth_address == b.eth_address &&
    a.wg_public_key == b.wg_public_key

/-- The sequence of fields the Hash instance of Identity feeds to the hasher:
mesh_ip, eth_address and wg_public_key, in that order, and never the
nickname. -/
def identityHashInput (i : Identity) : List Nat :=
  [i.mesh_ip, i.eth_address, i.wg_public_key]

/-- Embedding of Identity::get_hash.  The function H abstracts DefaultHasher
(the standard library SipHash implementation), mapping the fed field
sequence to the 64-bit finish value. -/
def get_hash (H : List Nat → Nat) (i : Identity) : Nat :=
  H (identityHashInput i)

/-! ## Exit switcher

Ip addresses are abstracted as Nat and the subnet membership test
check_ip_in_subnet (a pure function of the route prefix ip and the configured
exit subnet, implemented by the external ipnetwork crate) is abstracted as a
boolean predicate inSubnet on ips. -/

/-- The u16 maximum value, used by babel as the infinite metric. -/
def u16MAX : Nat := 65535

/-- The u64 modulus. -/
def u64Mod : Nat := 2 ^ 64

/-- The u16 modulus. -/
def u16Mod : Nat := 2 ^ 16

/-- METRIC_ENTRIES, the window capacity: fifteen minutes of five second
ticks. -/
def METRIC_ENTRIES : Nat := (15 * 60) / 5

/-- A babel route, restricted to the two fields exit_switcher reads: the ip
of the /128 route prefix and the u16 metric. -/
structure Route where
  prefixIp : Nat
  metric : Nat
deriving Repr, DecidableEq

/-- Embedding of ExitTracker: the u16 last added metric, the u64 running
total and the u16 ticker length. -/
structure ExitTracker where
  last_added_metric : Nat
  running_total : Nat
  ticker_len : Nat
deriving Repr, DecidableEq

/-- The EXIT_TRACKER hash map, as an association list keyed by exit ip. -/
abbrev ExitMap := List (Nat × ExitTracker)

/-- Map lookup (HashMap::get). -/
def lookupTracker : ExitMap → Nat → Option ExitTracker
  | [], _ => none
  | (k, v) :: rest, ip => if k = ip then some v else lookupTracker rest ip

/-- Map write (entry insert or in-place update); a vacant key is appended. -/
def setTracker : ExitMap → Nat → ExitTracker → ExitMap
  | [], ip, v => [(ip, v)]
  | (k, w) :: rest, ip, v =>
    if k = ip then (k, v) :: rest else (k, w) :: setTracker rest ip v

/-- Embedding of observe_cluster_metrics.  The u64 and u16 arithmetic of the
source wraps in release builds, which the explicit moduli reproduce.  A
vacant entry is created from the first observed metric; an entry whose
last_added_metric is zero takes the metric as the first observation of this
tick; a smaller metric later in the same tick replaces the previous
contribution. -/
def observe_cluster_metrics (exit_map : ExitMap) (ip met : Nat) : ExitMap :=
  match lookupTracker exit_map ip with
  | none => setTracker exit_map ip ⟨met, met, 1⟩
  | some exit =>
    if exit.last_added_metric = 0 then
      setTracker exit_map ip
        ⟨met, (exit.running_total + met) % u64Mod, (exit.ticker_len + 1) % u16Mod⟩
    else if met < exit.last_added_metric then
      setTracker exit_map ip
        ⟨met,
         ((exit.running_total + u64Mod - exit.last_added_metric) % u64Mod + met) % u64Mod,
         exit.ticker_len⟩
    else exit_map

/-- Embedding of set_last_added_to_zero: the per-tick residual
last_added_metric of every entry is reset. -/
def set_last_added_to_zero (exit_map : ExitMap) : ExitMap :=
  exit_map.map fun p => (p.1, { p.2 with last_added_metric := 0 })

/-- Embedding of reset_exit_tracking: every entry is zeroed wholesale. -/
def reset_exit_tracking (exit_map : ExitMap) : ExitMap :=
  exit_map.map fun p => (p.1, ⟨0, 0, 0⟩)

/-- Embedding of the ExitMetrics struct returned by get_exit_metrics. -/
structure ExitMetrics where
  is_exit_down : Bool
  cur_exit : Option Nat
  cur_exit_babel_met : Nat
  tracking_exit : Option Nat
  tracking_met : Nat
  best_exit : Option Nat
  best_exit_met : Nat
deriving Repr, DecidableEq

/-- The mutable locals of the route loop of get_exit_metrics. -/
structure GemState where
  best_exit : Option Nat
  best_metric : Nat
  current_exit_down : Bool
  current_exit_metric : Nat
  tracking_metric : Nat
  exit_map : ExitMap
deriving Repr, DecidableEq

/-- One iteration of the route loop of get_exit_metrics. -/
def gemStep (inSubnet : Nat → Bool) (current_exit_ip tracking_exit : Option Nat)
    (initial_best_metric : Nat) (s : GemState) (route : Route) : GemState :=
  let ip := route.prefixIp
  if inSubnet ip then
    let s :=
      match current_exit_ip with
      | some exit_ip =>
        if exit_ip = ip ∧ route.metric ≠ u16MAX then
          if initial_best_metric ≠ u16MAX then
            { s with
              current_exit_down := false
              current_exit_metric :=
                if s.current_exit_metric > route.metric then route.metric
                else s.current_exit_metric }
          else s
        else s
      | none => s
    let s :=
      match tracking_exit with
      | some tracking_ip =>
        if tracking_ip = ip ∧ route.metric ≠ u16MAX then
          { s with
            tracking_metric :=
              if s.tracking_metric > route.metric then route.metric
              else s.tracking_metric }
        else s
      | none => s
    let s := { s with exit_map := observe_cluster_metrics s.exit_map ip route.metric }
    if route.metric < s.best_metric then
      { s with best_metric := route.metric, best_exit := some ip }
    else s
  else s

/-- Embedding of get_exit_metrics: the route loop, then the replacement of
the best exit by the degradation-adjusted current exit when the current exit
is up and better, then the last_added_metric cleanup.  Returns the metrics
struct together with the updated tracker map. -/
def get_exit_metrics (routes : List Route) (inSubnet : Nat → Bool)
    (current_exit_ip tracking_exit initial_best_exit : Option Nat)
    (initial_best_metric : Nat) (exit_map : ExitMap) : ExitMetrics × ExitMap :=
  let s0 : GemState := ⟨none, u16MAX, true, u16MAX, u16MAX, exit_map⟩
  let s := routes.foldl
    (gemStep inSubnet current_exit_ip tracking_exit initial_best_metric) s0
  let s :=
    if ¬ s.current_exit_down ∧ initial_best_metric < s.best_metric then
      { s with best_metric := initial_best_metric, best_exit := initial_best_exit }
    else s
  (⟨s.current_exit_down, current_exit_ip, s.current_exit_metric, tracking_exit,
    s.tracking_metric, s.best_exit, s.best_metric⟩,
   set_last_added_to_zero s.exit_map)

/-- Embedding of calculate_average: the u64 sum of the values divided by the
length, cast to u16.  The source panics on an empty list and every call site
guards non-emptiness; the empty case here returns 0 (Nat division by
zero). -/
def calculate_average (vals : List Nat) : Nat :=
  ((vals.foldl (fun sum entry => sum + entry) 0) / vals.length) % u16Mod

/-- Embedding of worth_switching_tracking_exit.  The final test of the source
is (((avg_tracking - avg_best) as f64) / (avg_tracking as f64)) > 0.1; for
u16 operands this f64 comparison coincides exactly with the rational test
10 * (avg_tracking - avg_best) > avg_tracking, because a fraction p over q
with 0 < q ≤ 65535 that is not one tenth differs from it by at least
1 / (10 * q), far above the f64 rounding error of the division, while a
fraction equal to one tenth rounds to the f64 literal 0.1 itself and fails
the strict comparison (the unit tests of the source pin exactly this
boundary: 90 over 100 is not worth switching, 89 over 100 is).  Returns none
where the source would panic on a missing map entry. -/
def worth_switching_tracking_exit (metric_vec : List Nat) (best_ip : Nat)
    (exit_map : ExitMap) : Option Bool :=
  if metric_vec.isEmpty then some false
  else
    let avg_tracking := calculate_average metric_vec
    match lookupTracker exit_map best_ip with
    | none => none
    | some exit_tracker =>
      if exit_tracker.ticker_len = 0 then some false
      else
        let avg_best := (exit_tracker.running_total / exit_tracker.ticker_len) % u16Mod
        if avg_tracking < avg_best ∨ avg_best = 0 then some false
        else some (decide (10 * (avg_tracking - avg_best) > avg_tracking))

/-- The ExitSwitchingCode enum of the settings crate. -/
inductive ExitSwitchingCode where
  | InitialExitSetup
  | ContinueCurrentReset
  | ContinueCurrent
  | SwitchExit
  | ContinueTracking
  | ResetTracking
deriving Repr, DecidableEq

/-- The branch of update_metric_value where the best and the tracking exit
agree (the recursive call of the source re-enters this branch with the best
exit replaced by the tracking exit, so the single level of recursion is
unfolded into this helper). -/
def update_metric_value_eq (cur best_ip : Nat) (best_metric : Nat)
    (metric_vec : List Nat) (exit_map : ExitMap) :
    ExitSwitchingCode × List Nat × ExitMap :=
  let is_full := metric_vec.length = METRIC_ENTRIES
  if cur = best_ip then
    if is_full then
      (.ContinueCurrentReset, [best_metric], reset_exit_tracking exit_map)
    else
      (.ContinueCurrent, metric_vec ++ [best_metric], exit_map)
  else
    if is_full then
      (.SwitchExit, [best_metric], reset_exit_tracking exit_map)
    else
      (.ContinueTracking, metric_vec ++ [best_metric], exit_map)

/-- Embedding of update_metric_value.  Returns the code and the updated
window and tracker map; none models the panics of the source (a non-empty
window with no current exit, and a missing best exit). -/
def update_metric_value (em : ExitMetrics) (metric_vec : List Nat)
    (exit_map : ExitMap) : Option (ExitSwitchingCode × List Nat × ExitMap) :=
  match em.cur_exit with
  | none =>
    if metric_vec.isEmpty then some (.InitialExitSetup, metric_vec, exit_map)
    else none
  | some cur =>
    match em.best_exit with
    | none => none
    | some best_ip =>
      let tracking :=
        match em.tracking_exit with
        | some a => a
        | none => best_ip
      if best_ip = tracking then
        some (update_metric_value_eq cur best_ip em.best_exit_met metric_vec exit_map)
      else
        match worth_switching_tracking_exit metric_vec best_ip exit_map with
        | none => none
        | some true =>
          some (.ResetTracking, [em.best_exit_met], reset_exit_tracking exit_map)
        | some false =>
          some (update_metric_value_eq cur tracking em.tracking_met metric_vec exit_map)

/-- The SelectedExit struct of the settings crate, as read and written by
exit_switcher (the crate version defining it is not under src; the fields
are those the source uses). -/
structure SelectedExit where
  selected_id : Option Nat
  selected_id_metric : Option Nat
  selected_id_degradation : Option Nat
  tracking_exit : Option Nat
deriving Repr, DecidableEq

/-- Rust u16 checked_sub. -/
def checked_sub (a b : Nat) : Option Nat :=
  if b ≤ a then some (a - b) else none

/-- Embedding of set_exit_state.  Returns the updated SelectedExit of the
ExitServer and the Ok ip; none models the panic and expect failures of the
source. -/
def set_exit_state (sel : SelectedExit) (exit_code : ExitSwitchingCode)
    (em : ExitMetrics) (metric_vec : List Nat) : Option (SelectedExit × Nat) :=
  match exit_code with
  | .InitialExitSetup => none
  | .ContinueCurrentReset =>
    match em.cur_exit, sel.selected_id_metric with
    | some c, some m =>
      some ({ sel with selected_id_degradation :=
                checked_sub em.cur_exit_babel_met m }, c)
    | _, _ => none
  | .ContinueCurrent =>
    match em.cur_exit with
    | none => none
    | some c =>
      match sel.selected_id_degradation with
      | none =>
        match sel.selected_id_metric with
        | none => none
        | some m =>
          let average_metric := calculate_average metric_vec
          some ({ sel with selected_id_degradation :=
                    checked_sub average_metric m }, c)
      | some d =>
        match checked_sub em.cur_exit_babel_met d with
        | none => some (sel, c)
        | some res => some ({ sel with selected_id_metric := some res }, c)
  | .SwitchExit =>
    match em.best_exit with
    | none => none
    | some b =>
      some (⟨em.best_exit, some em.best_exit_met, none, em.best_exit⟩, b)
  | .ContinueTracking =>
    match em.cur_exit with
    | none => none
    | some c => some (sel, c)
  | .ResetTracking =>
    match em.cur_exit with
    | none => none
    | some c => some ({ sel with tracking_exit := em.best_exit }, c)

/-- The state set_best_exit acts on: the SelectedExit of the ExitServer, the
METRIC_VALUES window and the EXIT_TRACKER map. -/
structure SwitcherState where
  sel : SelectedExit
  metric_vec : List Nat
  exit_map : ExitMap
deriving Repr, DecidableEq

/-- Result of set_best_exit: Ok with the returned ip and the updated state,
Err keeping the state mutated so far (the bail branches), or a panic. -/
inductive SwitchResult where
  | ok (ip : Nat) (st : SwitcherState)
  | err (st : SwitcherState)
  | panicked
deriving Repr, DecidableEq

/-- Embedding of set_best_exit. -/
def set_best_exit (inSubnet : Nat → Bool) (routes : List Route)
    (st : SwitcherState) : SwitchResult :=
  if routes.isEmpty then .err st
  else
    let current_adjusted_metric := st.sel.selected_id_metric.getD u16MAX
    let tracking_exit := st.sel.tracking_exit
    let current_exit_ip := st.sel.selected_id
    let gem := get_exit_metrics routes inSubnet current_exit_ip tracking_exit
      current_exit_ip current_adjusted_metric st.exit_map
    let exit_metrics := gem.1
    match exit_metrics.best_exit with
    | none => .err { st with exit_map := gem.2 }
    | some _ =>
      match update_metric_value exit_metrics st.metric_vec gem.2 with
      | none => .panicked
      | some (exit_code, metric_vec, exit_map) =>
        if exit_metrics.is_exit_down then
          match exit_metrics.best_exit with
          | some a =>
            .ok a ⟨⟨exit_metrics.best_exit, some exit_metrics.best_exit_met,
                    none, exit_metrics.best_exit⟩, [],
                   reset_exit_tracking exit_map⟩
          | none => .err ⟨st.sel, metric_vec, exit_map⟩
        else
          match set_exit_state st.sel exit_code exit_metrics metric_vec with
          | none => .panicked
          | some (sel, ip) => .ok ip ⟨sel, metric_vec, exit_map⟩

/-! ## Claims about the oracle, the operator fee and identities -/

/-- C1: the claim says a returned zero balance overwrites a non-zero cached
balance only inside a 300 s window opened by a local withdraw-all.  The
update_balance function implements exactly that policy, but the Update
handler wires it with zero_window := Some(Instant::now()) instead of the
oracle field maintained by ZeroWindowStart, so the window test always
passes: with no withdraw-all ever initiated (oracle field none) and a cached
balance of 1 wei, the handler still accepts the zero, while update_balance
applied to the actual window state would keep the cached balance. -/
theorem C1_zero_balance_always_accepted :
    handle_update_balance none 0 0 1 0 = 0 ∧ update_balance none 0 1 0 = 1 := by
  constructor <;> rfl

/-- C2: for every gas price g returned by the node, the threshold update
stores clamp(g + g / 20, min_gas, max_gas) as the gas price, sets
pay_threshold = 21000 * gas_price * dynamic_fee_multiplier and
close_threshold = -4 * pay_threshold; stated for a well-formed band
(min_gas ≤ max_gas) and a clamped price that fits a signed 256-bit
integer. -/
theorem C2_gas_threshold_update (g lo hi mult : Nat) (old_pay : Int)
    (hlohi : lo ≤ hi) (hfit : min (max (g + g / 20) lo) hi < 2 ^ 255) :
    update_gas_price g lo hi mult old_pay =
      ⟨min (max (g + g / 20) lo) hi,
       21000 * ((min (max (g + g / 20) lo) hi : Nat) : Int) * (mult : Int),
       -(4 * (21000 * ((min (max (g + g / 20) lo) hi : Nat) : Int) * (mult : Int)))⟩ := by
  have hclamp :
      (if g + g / 20 < lo then lo else if g + g / 20 > hi then hi else g + g / 20)
        = min (max (g + g / 20) lo) hi := by
    simp only [Nat.min_def, Nat.max_def]
    split_ifs <;> omega
  simp only [update_gas_price, hclamp, if_pos hfit]
  congr 1

/-- Witness for C2 at g = 100, band [1, 10^9], multiplier 1. -/
theorem C2_gas_threshold_update_witness :
    update_gas_price 100 1 1000000000 1 0 =
      ⟨min (max (100 + 100 / 20) 1) 1000000000,
       21000 * ((min (max (100 + 100 / 20) 1) 1000000000 : Nat) : Int) * ((1 : Nat) : Int),
       -(4 * (21000 * ((min (max (100 + 100 / 20) 1) 1000000000 : Nat) : Int) * ((1 : Nat) : Int)))⟩ :=
  C2_gas_threshold_update 100 1 1000000000 1 0 (by norm_num) (by decide)

/-- C3 counterexample: with operator_fee = 1000 wei per second,
pay_threshold = 3600000 and 3601 elapsed seconds, the claim says the payment
amount is the owed 3601 * 1000 = 3601000 wei, but the source pays
pay_threshold.abs() = 3600000 wei. -/
theorem C3_operator_fee_amount_counterexample :
    operator_fee_tick (some 7) 1000 3600000 0 3601 = some (7, 3600000) ∧
      (3601 - 0) * 1000 = 3601000 ∧ (3600000 : Nat) ≠ 3601000 := by
  refine ⟨by decide, by norm_num, by norm_num⟩

/-- C3 amended: a payment is formed iff
(now - last_payment_time) * operator_fee exceeds pay_threshold, the amount
paid to the operator address is the absolute value of pay_threshold (not the
owed amount), the component is inert without an operator address, and a
successful broadcast advances last_payment_time to now. -/
theorem C3_operator_fee_amended (addr fee : Nat) (pay : Int) (last now : Nat)
    (hfee : fee < 2 ^ 255) :
    operator_fee_tick (some addr) fee pay last now =
      (if ((now - last : Nat) : Int) * (fee : Int) > pay
       then some (addr, pay.natAbs) else none) ∧
    operator_fee_tick none fee pay last now = none ∧
    handle_successful_payment now = now := by
  refine ⟨?_, rfl, rfl⟩
  simp only [operator_fee_tick, if_pos hfee]

/-- Witness for C3 amended at the pro-ration scenario numbers. -/
theorem C3_operator_fee_amended_witness :
    operator_fee_tick (some 7) 1000 3600000 0 3601 =
      (if ((3601 - 0 : Nat) : Int) * ((1000 : Nat) : Int) > (3600000 : Int)
       then some (7, (3600000 : Int).natAbs) else none) ∧
    operator_fee_tick none 1000 3600000 0 3601 = none ∧
    handle_successful_payment 3601 = 3601 :=
  C3_operator_fee_amended 7 1000 3600000 0 3601 (by decide)

/-- C4: the cached net_version is write-once: once latched to some v it
survives every later update (agreeing, disagreeing or unparsable), and the
first successful parse latches the value. -/
theorem C4_net_version_write_once (v : Nat) (newv : Option Nat) :
    get_net_version (some v) newv = some v ∧
      ∀ n : Nat, get_net_version none (some n) = some n := by
  constructor
  · cases newv with
    | none => rfl
    | some n => simp only [get_net_version, ite_self]
  · intro n
    rfl

/-- C5: an oracle nonce refresh overwrites the cached nonce with the
returned transaction count unconditionally, in particular also when the
returned value is lower than the cached one. -/
theorem C5_nonce_overwrite (transaction_count nonce : Nat) :
    update_nonce transaction_count nonce = transaction_count := rfl

/-- C9: identities agreeing on mesh_ip, eth_address and wg_public_key are
equal and hash identically under any hasher, regardless of their nickname
fields. -/
theorem C9_identity_ignore_nickname (H : List Nat → Nat) (a b : Identity)
    (hm : a.mesh_ip = b.mesh_ip) (he : a.eth_address = b.eth_address)
    (hw : a.wg_public_key = b.wg_public_key) :
    identityEq a b = true ∧ get_hash H a = get_hash H b := by
  constructor
  · simp [identityEq, hm, he, hw]
  · simp [get_hash, identityHashInput, hm, he, hw]

/-- Witness for C9: two identities equal on the triple, with different
nicknames, under a concrete hasher. -/
theorem C9_identity_ignore_nickname_witness :
    identityEq ⟨1, 2, 3, some 4⟩ ⟨1, 2, 3, none⟩ = true ∧
      get_hash (fun l => l.foldl (fun acc x => acc + x) 0) ⟨1, 2, 3, some 4⟩ =
        get_hash (fun l => l.foldl (fun acc x => acc + x) 0) ⟨1, 2, 3, none⟩ :=
  C9_identity_ignore_nickname (fun l => l.foldl (fun acc x => acc + x) 0)
    ⟨1, 2, 3, some 4⟩ ⟨1, 2, 3, none⟩ rfl rfl rfl

/-! ## Exit switcher lemmas -/

/-- A route outside the exit subnet leaves the loop state unchanged. -/
theorem gemStep_not_in_subnet (inSubnet : Nat → Bool) (cur tr : Option Nat)
    (ibm : Nat) (s : GemState) (r : Route) (h : inSubnet r.prefixIp = false) :
    gemStep inSubnet cur tr ibm s r = s := by
  simp [gemStep, h]

/-- A route list entirely outside the exit subnet leaves the loop state
unchanged. -/
theorem gem_foldl_no_subnet (inSubnet : Nat → Bool) (cur tr : Option Nat)
    (ibm : Nat) (routes : List Route) (s : GemState)
    (h : ∀ r ∈ routes, inSubnet r.prefixIp = false) :
    routes.foldl (gemStep inSubnet cur tr ibm) s = s := by
  induction routes generalizing s with
  | nil => rfl
  | cons r rest ih =>
    rw [List.foldl_cons, gemStep_not_in_subnet _ _ _ _ _ _ (h r (by simp))]
    exact ih s fun x hx => h x (by simp [hx])

/-- C10: when the route list is empty or has no route inside the exit
subnet, set_best_exit bails with an error and the SelectedExit of the
ExitServer is left unchanged. -/
theorem C10_no_candidate_is_error (inSubnet : Nat → Bool) (routes : List Route)
    (st : SwitcherState)
    (h : routes = [] ∨ ∀ r ∈ routes, inSubnet r.prefixIp = false) :
    ∃ st2 : SwitcherState, set_best_exit inSubnet routes st = .err st2 ∧
      st2.sel = st.sel := by
  by_cases hemp : routes.isEmpty
  · exact ⟨st, by simp [set_best_exit, hemp], rfl⟩
  · rcases h with h | h
    · simp [h] at hemp
    · have hfold := gem_foldl_no_subnet inSubnet st.sel.selected_id
        st.sel.tracking_exit (st.sel.selected_id_metric.getD u16MAX) routes
        ⟨none, u16MAX, true, u16MAX, u16MAX, st.exit_map⟩ h
      refine ⟨{ st with exit_map := set_last_added_to_zero st.exit_map }, ?_, rfl⟩
      simp [set_best_exit, hemp, get_exit_metrics, hfold]

/-- Witness for C10 on a one-route list outside the subnet. -/
theorem C10_no_candidate_is_error_witness :
    ∃ st2 : SwitcherState,
      set_best_exit (fun _ => false) [⟨5, 10⟩]
          ⟨⟨none, none, none, none⟩, [], []⟩ = .err st2 ∧
        st2.sel = (⟨⟨none, none, none, none⟩, [], []⟩ : SwitcherState).sel :=
  C10_no_candidate_is_error (fun _ => false) [⟨5, 10⟩]
    ⟨⟨none, none, none, none⟩, [], []⟩
    (Or.inr fun r hr => by
      simp only [List.mem_singleton] at hr
      subst hr
      rfl)

/-- C8 counterexample: window [100] (tracking average 100) and a best exit
whose running average is 90, exactly 10 percent better.  The claim says the
tracker is reset; the source requires strictly more than 10 percent (its own
unit test pins this boundary) and instead recomputes with best set to the
tracking exit, producing ContinueCurrent. -/
theorem C8_ten_percent_counterexample :
    update_metric_value ⟨false, some 1, 100, some 1, 100, some 2, 90⟩ [100]
        [(2, ⟨0, 90, 1⟩)] =
      some (.ContinueCurrent, [100, 100], [(2, ⟨0, 90, 1⟩)]) ∧
      10 * (100 - 90) ≥ (100 : Nat) ∧
      ExitSwitchingCode.ContinueCurrent ≠ ExitSwitchingCode.ResetTracking := by
  refine ⟨by decide, by norm_num, by decide⟩

/-- C8 amended: on a tick where the best exit differs from the tracking
exit, the tracker is reset to the new best exit (window restarted with the
best metric of this tick, ExitTrackers cleared) iff the window is non-empty,
the best exit has a recorded tick, its running average is non-zero, no
larger than the tracking average, and STRICTLY more than 10 percent better;
otherwise the new best is discarded and the decision is recomputed with best
replaced by the tracking exit.  A ResetTracking outcome changes only
tracking_exit (to the best exit), leaving selected_id untouched. -/
theorem C8_tracking_reset_amended (em : ExitMetrics) (vec : List Nat)
    (m : ExitMap) (c b t : Nat) (et : ExitTracker)
    (hc : em.cur_exit = some c) (hb : em.best_exit = some b)
    (ht : em.tracking_exit = some t) (hbt : b ≠ t)
    (hlk : lookupTracker m b = some et) :
    update_metric_value em vec m =
      (if 0 < et.ticker_len ∧ vec ≠ [] ∧
          (et.running_total / et.ticker_len) % u16Mod ≠ 0 ∧
          (et.running_total / et.ticker_len) % u16Mod ≤ calculate_average vec ∧
          calculate_average vec <
            10 * (calculate_average vec - (et.running_total / et.ticker_len) % u16Mod)
       then some (.ResetTracking, [em.best_exit_met], reset_exit_tracking m)
       else some (update_metric_value_eq c t em.tracking_met vec m)) ∧
    ∀ sel : SelectedExit,
      set_exit_state sel .ResetTracking em vec =
        some ({ sel with tracking_exit := em.best_exit }, c) := by
  constructor
  · simp only [update_metric_value, hc, hb, ht]
    rw [if_neg hbt]
    simp only [worth_switching_tracking_exit, hlk]
    by_cases hv : vec.isEmpty
    · have hvnil : vec = [] := List.isEmpty_iff.mp hv
      rw [if_pos hv]
      rw [if_neg (by simp [hvnil])]
    · have hvne : vec ≠ [] := fun hh => hv (by simp [hh])
      rw [if_neg hv]
      by_cases hl : et.ticker_len = 0
      · rw [if_pos hl]
        rw [if_neg (by simp [hl])]
      · rw [if_neg hl]
        by_cases hz : calculate_average vec <
            (et.running_total / et.ticker_len) % u16Mod ∨
            (et.running_total / et.ticker_len) % u16Mod = 0
        · rw [if_pos hz]
          rw [if_neg (by
            rintro ⟨-, -, h3, h4, -⟩
            rcases hz with hz | hz
            · omega
            · exact h3 hz)]
        · rw [if_neg hz]
          push_neg at hz
          by_cases hgt : 10 * (calculate_average vec -
              (et.running_total / et.ticker_len) % u16Mod) > calculate_average vec
          · rw [decide_eq_true hgt]
            rw [if_pos ⟨Nat.pos_of_ne_zero hl, hvne, hz.2, hz.1, hgt⟩]
          · rw [decide_eq_false hgt]
            rw [if_neg (by rintro ⟨-, -, -, -, h5⟩; exact hgt h5)]
  · intro sel
    simp [set_exit_state, hc]

/-- Witness for C8 amended, on a tick where the best running average is more
than 10 percent better than the tracking average. -/
theorem C8_tracking_reset_amended_witness :
    update_metric_value ⟨false, some 1, 100, some 1, 100, some 2, 80⟩ [100]
        [(2, ⟨0, 80, 1⟩)] =
      (if 0 < (⟨0, 80, 1⟩ : ExitTracker).ticker_len ∧ ([100] : List Nat) ≠ [] ∧
          (((⟨0, 80, 1⟩ : ExitTracker).running_total /
            (⟨0, 80, 1⟩ : ExitTracker).ticker_len) % u16Mod) ≠ 0 ∧
          (((⟨0, 80, 1⟩ : ExitTracker).running_total /
            (⟨0, 80, 1⟩ : ExitTracker).ticker_len) % u16Mod) ≤
            calculate_average [100] ∧
          calculate_average [100] <
            10 * (calculate_average [100] -
              (((⟨0, 80, 1⟩ : ExitTracker).running_total /
                (⟨0, 80, 1⟩ : ExitTracker).ticker_len) % u16Mod))
       then some (.ResetTracking,
          [(⟨false, some 1, 100, some 1, 100, some 2, 80⟩ : ExitMetrics).best_exit_met],
          reset_exit_tracking [(2, ⟨0, 80, 1⟩)])
       else some (update_metric_value_eq 1 1
          (⟨false, some 1, 100, some 1, 100, some 2, 80⟩ : ExitMetrics).tracking_met
          [100] [(2, ⟨0, 80, 1⟩)])) ∧
    ∀ sel : SelectedExit,
      set_exit_state sel .ResetTracking
          ⟨false, some 1, 100, some 1, 100, some 2, 80⟩ [100] =
        some ({ sel with tracking_exit :=
          (⟨false, some 1, 100, some 1, 100, some 2, 80⟩ : ExitMetrics).best_exit }, 1) :=
  C8_tracking_reset_amended ⟨false, some 1, 100, some 1, 100, some 2, 80⟩ [100]
    [(2, ⟨0, 80, 1⟩)] 1 2 1 ⟨0, 80, 1⟩ rfl rfl rfl (by decide) rfl

/-! ## Tracker accounting (single entry view of observe_cluster_metrics) -/

/-- The per-entry semantics of observe_cluster_metrics: what happens to the
tracker of the observed ip. -/
def observeOne : Option ExitTracker → Nat → ExitTracker
  | none, met => ⟨met, met, 1⟩
  | some exit, met =>
    if exit.last_added_metric = 0 then
      ⟨met, (exit.running_total + met) % u64Mod, (exit.ticker_len + 1) % u16Mod⟩
    else if met < exit.last_added_metric then
      ⟨met,
       ((exit.running_total + u64Mod - exit.last_added_metric) % u64Mod + met) % u64Mod,
       exit.ticker_len⟩
    else exit

/-- Looking up the written key after setTracker. -/
theorem lookupTracker_setTracker_self (m : ExitMap) (ip : Nat) (v : ExitTracker) :
    lookupTracker (setTracker m ip v) ip = some v := by
  induction m with
  | nil => simp [setTracker, lookupTracker]
  | cons p rest ih =>
    obtain ⟨k, w⟩ := p
    by_cases h : k = ip
    · simp [setTracker, lookupTracker, h]
    · simp [setTracker, lookupTracker, h, ih]

/-- Looking up another key after setTracker. -/
theorem lookupTracker_setTracker_ne (m : ExitMap) (ip k : Nat) (v : ExitTracker)
    (h : k ≠ ip) : lookupTracker (setTracker m ip v) k = lookupTracker m k := by
  induction m with
  | nil =>
    simp only [setTracker, lookupTracker]
    rw [if_neg fun hh => h hh.symm]
  | cons p rest ih =>
    obtain ⟨k2, w⟩ := p
    by_cases h2 : k2 = ip
    · subst h2
      simp [setTracker, lookupTracker, Ne.symm h]
    · simp only [setTracker, if_neg h2]
      by_cases h3 : k2 = k <;> simp [lookupTracker, h3, ih]

/-- observe_cluster_metrics acts on the observed key as observeOne. -/
theorem lookup_observe_self (m : ExitMap) (ip met : Nat) :
    lookupTracker (observe_cluster_metrics m ip met) ip =
      some (observeOne (lookupTracker m ip) met) := by
  unfold observe_cluster_metrics observeOne
  cases h : lookupTracker m ip with
  | none => simp [lookupTracker_setTracker_self]
  | some e =>
    by_cases h0 : e.last_added_metric = 0
    · simp [h0, lookupTracker_setTracker_self]
    · by_cases h1 : met < e.last_added_metric
      · simp [h0, h1, lookupTracker_setTracker_self]
      · simp [h0, h1, h]

/-- observe_cluster_metrics leaves other keys alone. -/
theorem lookup_observe_ne (m : ExitMap) (ip met k : Nat) (h : k ≠ ip) :
    lookupTracker (observe_cluster_metrics m ip met) k = lookupTracker m k := by
  cases hl : lookupTracker m ip with
  | none => simp [observe_cluster_metrics, hl, lookupTracker_setTracker_ne _ _ _ _ h]
  | some e =>
    by_cases h0 : e.last_added_metric = 0
    · simp [observe_cluster_metrics, hl, h0, lookupTracker_setTracker_ne _ _ _ _ h]
    · by_cases h1 : met < e.last_added_metric
      · simp [observe_cluster_metrics, hl, h0, h1,
          lookupTracker_setTracker_ne _ _ _ _ h]
      · simp [observe_cluster_metrics, hl, h0, h1]

/-- Lookup after a value-wise map rewrite of the association list. -/
theorem lookupTracker_map (f : ExitTracker → ExitTracker) (m : ExitMap) (ip : Nat) :
    lookupTracker (m.map fun p => (p.1, f p.2)) ip = (lookupTracker m ip).map f := by
  induction m with
  | nil => rfl
  | cons p rest ih =>
    by_cases h : p.1 = ip <;> simp [lookupTracker, h, ih]

/-- Lookup after the per-tick cleanup. -/
theorem lookup_set_last_added (m : ExitMap) (ip : Nat) :
    lookupTracker (set_last_added_to_zero m) ip =
      (lookupTracker m ip).map fun e => { e with last_added_metric := 0 } :=
  lookupTracker_map (fun e => { e with last_added_metric := 0 }) m ip

/-- Lookup after a wholesale tracker reset. -/
theorem lookup_reset_exit_tracking (m : ExitMap) (ip : Nat) :
    lookupTracker (reset_exit_tracking m) ip =
      (lookupTracker m ip).map fun _ => (⟨0, 0, 0⟩ : ExitTracker) :=
  lookupTracker_map (fun _ => (⟨0, 0, 0⟩ : ExitTracker)) m ip

/-! ## Tick sequences for the tracker map -/

/-- The observation pass of one tick for the tracker map: every subnet route
of the tick is observed in loop order, then the per-tick residual
last_added_metric is zeroed, exactly as get_exit_metrics does. -/
def observe_tick (m : ExitMap) (obs : List (Nat × Nat)) : ExitMap :=
  set_last_added_to_zero (obs.foldl (fun m p => observe_cluster_metrics m p.1 p.2) m)

/-- A sequence of observation ticks. -/
def observe_ticks (m : ExitMap) (ticks : List (List (Nat × Nat))) : ExitMap :=
  ticks.foldl observe_tick m

/-- The metrics observed for an ip in one tick, in loop order. -/
def ipMetrics (ip : Nat) (tick : List (Nat × Nat)) : List Nat :=
  (tick.filter fun p => p.1 == ip).map Prod.snd

/-- Left fold of min over a list with an accumulator. -/
def listMin (acc : Nat) : List Nat → Nat
  | [] => acc
  | x :: xs => listMin (min acc x) xs

/-- The best (minimum) metric observed for the ip in the tick, when the tick
contains the ip at all. -/
def tickMin (ip : Nat) (tick : List (Nat × Nat)) : Option Nat :=
  match ipMetrics ip tick with
  | [] => none
  | x :: xs => some (listMin x xs)

/-- Sum of the per-tick best metrics for the ip over a tick sequence. -/
def tickMinSum (ip : Nat) : List (List (Nat × Nat)) → Nat
  | [] => 0
  | t :: ts => (match tickMin ip t with | none => 0 | some v => v) + tickMinSum ip ts

/-- Number of ticks in which the ip was observed at all. -/
def contribCount (ip : Nat) : List (List (Nat × Nat)) → Nat
  | [] => 0
  | t :: ts => (if tickMin ip t = none then 0 else 1) + contribCount ip ts

/-- Projection of a whole observation loop onto one key. -/
theorem lookup_foldObserve (tick : List (Nat × Nat)) (m : ExitMap) (ip : Nat) :
    lookupTracker (tick.foldl (fun m p => observe_cluster_metrics m p.1 p.2) m) ip =
      (ipMetrics ip tick).foldl (fun e met => some (observeOne e met))
        (lookupTracker m ip) := by
  induction tick generalizing m with
  | nil => rfl
  | cons p rest ih =>
    by_cases h : p.1 = ip
    · subst h
      simp only [List.foldl_cons, ih, ipMetrics, List.filter_cons, beq_self_eq_true,
        if_true, List.map_cons, lookup_observe_self]
    · have hne : ip ≠ p.1 := Ne.symm h
      simp only [List.foldl_cons, ih, ipMetrics, List.filter_cons]
      rw [lookup_observe_ne _ _ _ _ hne]
      simp [h]

/-- The accumulator of listMin never grows. -/
theorem listMin_le (acc : Nat) (xs : List Nat) : listMin acc xs ≤ acc := by
  induction xs generalizing acc with
  | nil => simp [listMin]
  | cons y ys ih => exact le_trans (ih (min acc y)) (min_le_left _ _)

/-- Every element of ipMetrics comes from a pair of the tick. -/
theorem mem_ipMetrics (ip : Nat) (t : List (Nat × Nat)) (y : Nat)
    (h : y ∈ ipMetrics ip t) : ∃ p ∈ t, p.1 = ip ∧ p.2 = y := by
  unfold ipMetrics at h
  rcases List.mem_map.mp h with ⟨p, hp, rfl⟩
  rcases List.mem_filter.mp hp with ⟨hmem, hfil⟩
  exact ⟨p, hmem, by simpa using hfil, rfl⟩

/-- Inside a tick, once an entry holds a positive current minimum c with an
exact total T + c, further observations keep the exact running minimum. -/
theorem observeOne_run (xs : List Nat) (c T L : Nat) (hc : 0 < c)
    (hxs : ∀ y ∈ xs, 0 < y) (hT : T + c < u64Mod) :
    xs.foldl (fun e met => some (observeOne e met)) (some ⟨c, T + c, L⟩) =
      some ⟨listMin c xs, T + listMin c xs, L⟩ := by
  induction xs generalizing c with
  | nil => simp [listMin]
  | cons y ys ih =>
    have hy : 0 < y := hxs y (by simp)
    by_cases hlt : y < c
    · have hob : observeOne (some ⟨c, T + c, L⟩) y = ⟨y, T + y, L⟩ := by
        show (if c = 0 then (⟨y, (T + c + y) % u64Mod, (L + 1) % u16Mod⟩ : ExitTracker)
              else if y < c then
                ⟨y, ((T + c + u64Mod - c) % u64Mod + y) % u64Mod, L⟩
              else ⟨c, T + c, L⟩) = ⟨y, T + y, L⟩
        rw [if_neg (by omega), if_pos hlt]
        have h1 : T + c + u64Mod - c = T + u64Mod := by omega
        have h2 : (T + u64Mod) % u64Mod = T := by
          rw [Nat.add_mod_right, Nat.mod_eq_of_lt (by omega)]
        have h3 : (T + y) % u64Mod = T + y := Nat.mod_eq_of_lt (by omega)
        rw [h1, h2, h3]
      rw [List.foldl_cons, hob]
      have hmin : min c y = y := by omega
      rw [listMin, hmin]
      exact ih y hy (fun z hz => hxs z (by simp [hz])) (by omega)
    · have hob : observeOne (some ⟨c, T + c, L⟩) y = ⟨c, T + c, L⟩ := by
        show (if c = 0 then (⟨y, (T + c + y) % u64Mod, (L + 1) % u16Mod⟩ : ExitTracker)
              else if y < c then
                ⟨y, ((T + c + u64Mod - c) % u64Mod + y) % u64Mod, L⟩
              else ⟨c, T + c, L⟩) = ⟨c, T + c, L⟩
        rw [if_neg (by omega), if_neg hlt]
      rw [List.foldl_cons, hob]
      have hmin : min c y = c := by omega
      rw [listMin, hmin]
      exact ih c hc (fun z hz => hxs z (by simp [hz])) hT

/-- A contributing tick starting from a cleaned entry adds exactly the tick
minimum to the total and one to the ticker length. -/
theorem observe_tick_ip_run (x : Nat) (xs : List Nat) (S C : Nat)
    (hx : 0 < x) (hxs : ∀ y ∈ xs, 0 < y)
    (hSx : S + x < u64Mod) (hC : C + 1 < u16Mod) :
    (x :: xs).foldl (fun e met => some (observeOne e met)) (some ⟨0, S, C⟩) =
      some ⟨listMin x xs, S + listMin x xs, C + 1⟩ := by
  have hob : observeOne (some ⟨0, S, C⟩) x = ⟨x, S + x, C + 1⟩ := by
    show (if (0 : Nat) = 0 then (⟨x, (S + x) % u64Mod, (C + 1) % u16Mod⟩ : ExitTracker)
          else if x < 0 then
            ⟨x, ((S + u64Mod - 0) % u64Mod + x) % u64Mod, C⟩
          else ⟨0, S, C⟩) = ⟨x, S + x, C + 1⟩
    rw [if_pos rfl, Nat.mod_eq_of_lt hSx, Nat.mod_eq_of_lt hC]
  rw [List.foldl_cons, hob]
  exact observeOne_run xs x S (C + 1) hx hxs hSx

/-- Main accounting run over a tick sequence, with explicit bounds that keep
the u64 and u16 arithmetic exact. -/
theorem observe_ticks_ip_run (ip : Nat) (ticks : List (List (Nat × Nat)))
    (m : ExitMap) (S C : Nat)
    (h0 : lookupTracker m ip = some ⟨0, S, C⟩)
    (hS : S ≤ 65535 * C)
    (hC : C + contribCount ip ticks ≤ 65535)
    (hpos : ∀ t ∈ ticks, ∀ p ∈ t, p.1 = ip → 0 < p.2)
    (hu16 : ∀ t ∈ ticks, ∀ p ∈ t, p.1 = ip → p.2 < u16Mod) :
    lookupTracker (observe_ticks m ticks) ip =
      some ⟨0, S + tickMinSum ip ticks, C + contribCount ip ticks⟩ := by
  induction ticks generalizing m S C with
  | nil => simpa [observe_ticks, tickMinSum, contribCount] using h0
  | cons t ts ih =>
    have hstep : observe_ticks m (t :: ts) = observe_ticks (observe_tick m t) ts := rfl
    cases hm : ipMetrics ip t with
    | nil =>
      have htm : tickMin ip t = none := by simp [tickMin, hm]
      have hlt : lookupTracker (observe_tick m t) ip = some ⟨0, S, C⟩ := by
        unfold observe_tick
        rw [lookup_set_last_added, lookup_foldObserve, hm]
        simp [h0]
      rw [hstep, ih (observe_tick m t) S C hlt hS
        (by simpa [contribCount, htm] using hC)
        (fun u hu => hpos u (by simp [hu]))
        (fun u hu => hu16 u (by simp [hu]))]
      simp [tickMinSum, contribCount, htm]
    | cons x xs =>
      have htm : tickMin ip t = some (listMin x xs) := by simp [tickMin, hm]
      have hxmem : x ∈ ipMetrics ip t := by rw [hm]; simp
      have hxsmem : ∀ y ∈ xs, y ∈ ipMetrics ip t := by
        intro y hy
        rw [hm]
        simp [hy]
      have hposm : ∀ y ∈ ipMetrics ip t, 0 < y := by
        intro y hy
        rcases mem_ipMetrics ip t y hy with ⟨p, hp, hip, hmet⟩
        rw [← hmet]
        exact hpos t (by simp) p hp hip
      have hu16m : ∀ y ∈ ipMetrics ip t, y < u16Mod := by
        intro y hy
        rcases mem_ipMetrics ip t y hy with ⟨p, hp, hip, hmet⟩
        rw [← hmet]
        exact hu16 t (by simp) p hp hip
      have hCb : C ≤ 65534 := by
        have h1 := hC
        simp [contribCount, htm] at h1
        omega
      have hxu : x < u16Mod := hu16m x hxmem
      have hSx : S + x < u64Mod := by
        have h1 : S ≤ 65535 * 65534 := le_trans hS (Nat.mul_le_mul_left _ hCb)
        have h2 : u16Mod = 65536 := by norm_num [u16Mod]
        have h3 : u64Mod = 18446744073709551616 := by norm_num [u64Mod]
        omega
      have hC1 : C + 1 < u16Mod := by
        have h2 : u16Mod = 65536 := by norm_num [u16Mod]
        omega
      have hlt : lookupTracker (observe_tick m t) ip =
          some ⟨0, S + listMin x xs, C + 1⟩ := by
        unfold observe_tick
        rw [lookup_set_last_added, lookup_foldObserve, hm, h0]
        rw [observe_tick_ip_run x xs S C (hposm x hxmem)
          (fun y hy => hposm y (hxsmem y hy)) hSx hC1]
        rfl
      have hmin_le : listMin x xs ≤ x := listMin_le x xs
      have hS1 : S + listMin x xs ≤ 65535 * (C + 1) := by
        have h4 : listMin x xs ≤ 65535 := by
          have h2 : u16Mod = 65536 := by norm_num [u16Mod]
          omega
        calc S + listMin x xs ≤ 65535 * C + 65535 := by omega
          _ = 65535 * (C + 1) := by ring
      have hC2 : (C + 1) + contribCount ip ts ≤ 65535 := by
        have h1 := hC
        simp [contribCount, htm] at h1
        omega
      rw [hstep, ih (observe_tick m t) (S + listMin x xs) (C + 1) hlt hS1 hC2
        (fun u hu => hpos u (by simp [hu]))
        (fun u hu => hu16 u (by simp [hu]))]
      simp only [tickMinSum, contribCount, htm, Option.some.injEq, ExitTracker.mk.injEq]
      simp only [Option.some_ne_none, if_false]
      refine ⟨by trivial, by omega, by omega⟩

/-- C7 counterexample: a tick observing the routes (ip 1, metric 0) then
(ip 1, metric 5) from a freshly reset entry.  The per-tick minimum is 0 and
one tick contributed, but because the source reuses last_added_metric = 0 as
the vacancy sentinel, the second route is booked as a fresh tick: the entry
ends at running_total = 5 and ticker_len = 2, so the claimed accounting
invariant fails. -/
theorem C7_tracker_accounting_counterexample :
    lookupTracker (observe_ticks [(1, ⟨0, 0, 0⟩)] [[(1, 0), (1, 5)]]) 1 =
        some ⟨0, 5, 2⟩ ∧
      tickMinSum 1 [[(1, 0), (1, 5)]] = 0 ∧
      contribCount 1 [[(1, 0), (1, 5)]] = 1 ∧
      ¬((5 : Nat) = 0 ∧ (2 : Nat) = 1) := by
  refine ⟨by decide, by decide, by decide, by decide⟩

/-- C7 amended: starting from a reset entry, provided every metric observed
for the ip is non-zero (the zero metric collides with the vacancy sentinel
of last_added_metric), metrics are u16 values and at most 65535 ticks
contribute, after each tick the entry holds running_total equal to the sum
of the per-tick minimum metrics over contributing ticks and ticker_len equal
to the number of contributing ticks. -/
theorem C7_tracker_accounting_amended (ip : Nat)
    (ticks : List (List (Nat × Nat))) (m : ExitMap)
    (h0 : lookupTracker m ip = some ⟨0, 0, 0⟩)
    (hpos : ∀ t ∈ ticks, ∀ p ∈ t, p.1 = ip → 0 < p.2)
    (hu16 : ∀ t ∈ ticks, ∀ p ∈ t, p.1 = ip → p.2 < u16Mod)
    (hcnt : contribCount ip ticks ≤ 65535) :
    lookupTracker (observe_ticks m ticks) ip =
      some ⟨0, tickMinSum ip ticks, contribCount ip ticks⟩ := by
  simpa using observe_ticks_ip_run ip ticks m 0 0 h0 (by simp)
    (by simpa using hcnt) hpos hu16

/-- Witness for C7 amended: two contributing ticks with several routes for
the ip and one foreign route. -/
theorem C7_tracker_accounting_amended_witness :
    lookupTracker
        (observe_ticks [(1, ⟨0, 0, 0⟩)] [[(1, 7), (1, 3), (2, 5)], [], [(1, 4)]]) 1 =
      some ⟨0, tickMinSum 1 [[(1, 7), (1, 3), (2, 5)], [], [(1, 4)]],
            contribCount 1 [[(1, 7), (1, 3), (2, 5)], [], [(1, 4)]]⟩ :=
  C7_tracker_accounting_amended 1 [[(1, 7), (1, 3), (2, 5)], [], [(1, 4)]]
    [(1, ⟨0, 0, 0⟩)] (by decide) (by decide) (by decide) (by decide)

/-! ## Failover path of set_best_exit -/

/-- How one loop step updates the best exit. -/
theorem gemStep_best_exit (inSubnet : Nat → Bool) (cur tr : Option Nat)
    (ibm : Nat) (s : GemState) (r : Route) :
    (gemStep inSubnet cur tr ibm s r).best_exit =
      if inSubnet r.prefixIp = true ∧ r.metric < s.best_metric then some r.prefixIp
      else s.best_exit := by
  unfold gemStep
  cases cur <;> cases tr <;> by_cases hin : inSubnet r.prefixIp <;>
    simp only [hin, if_true, if_false, Bool.false_eq_true] <;>
    split_ifs <;> simp_all

/-- How one loop step updates the best metric. -/
theorem gemStep_best_metric (inSubnet : Nat → Bool) (cur tr : Option Nat)
    (ibm : Nat) (s : GemState) (r : Route) :
    (gemStep inSubnet cur tr ibm s r).best_metric =
      if inSubnet r.prefixIp = true ∧ r.metric < s.best_metric then r.metric
      else s.best_metric := by
  unfold gemStep
  cases cur <;> cases tr <;> by_cases hin : inSubnet r.prefixIp <;>
    simp only [hin, if_true, if_false, Bool.false_eq_true] <;>
    split_ifs <;> simp_all

/-- How one loop step updates the tracker map. -/
theorem gemStep_exit_map (inSubnet : Nat → Bool) (cur tr : Option Nat)
    (ibm : Nat) (s : GemState) (r : Route) :
    (gemStep inSubnet cur tr ibm s r).exit_map =
      if inSubnet r.prefixIp = true then
        observe_cluster_metrics s.exit_map r.prefixIp r.metric
      else s.exit_map := by
  unfold gemStep
  cases cur <;> cases tr <;> by_cases hin : inSubnet r.prefixIp <;>
    simp only [hin, if_true, if_false, Bool.false_eq_true] <;>
    split_ifs <;> simp_all

/-- The down flag survives a loop step whose route cannot revive the current
exit (not the selected ip inside the subnet, or infinite metric). -/
theorem gemStep_down_preserved (inSubnet : Nat → Bool) (cur tr : Option Nat)
    (ibm : Nat) (s : GemState) (r : Route)
    (h : ∀ ip, cur = some ip → inSubnet r.prefixIp = true → r.prefixIp = ip →
      r.metric = u16MAX) :
    (gemStep inSubnet cur tr ibm s r).current_exit_down = s.current_exit_down := by
  unfold gemStep
  cases hcur : cur with
  | none =>
    cases tr <;> by_cases hin : inSubnet r.prefixIp <;>
      simp only [hin, if_true, if_false, Bool.false_eq_true] <;>
      split_ifs <;> simp_all
  | some ip =>
    by_cases hin : inSubnet r.prefixIp
    · have hcase : ¬(ip = r.prefixIp ∧ r.metric ≠ u16MAX) := by
        rintro ⟨h1, h2⟩
        exact h2 (h ip hcur hin h1.symm)
      cases tr <;>
        simp only [hin, if_true, if_false, Bool.false_eq_true] <;>
        split_ifs <;> simp_all
    · cases tr <;>
        simp only [hin, if_true, if_false, Bool.false_eq_true]

/-- observe_cluster_metrics never drops a present key. -/
theorem lookup_observe_ne_none (m : ExitMap) (ip met k : Nat)
    (h : lookupTracker m k ≠ none) :
    lookupTracker (observe_cluster_metrics m ip met) k ≠ none := by
  by_cases hk : k = ip
  · subst hk
    rw [lookup_observe_self]
    simp
  · rw [lookup_observe_ne _ _ _ _ hk]
    exact h

/-- The observed key is present after observe_cluster_metrics. -/
theorem lookup_observe_self_ne_none (m : ExitMap) (ip met : Nat) :
    lookupTracker (observe_cluster_metrics m ip met) ip ≠ none := by
  rw [lookup_observe_self]
  simp

/-- Every entry is zeroed after reset_exit_tracking. -/
theorem reset_exit_tracking_cleared (m : ExitMap) :
    ∀ p ∈ reset_exit_tracking m, p.2 = (⟨0, 0, 0⟩ : ExitTracker) := by
  intro p hp
  rcases List.mem_map.mp hp with ⟨q, hq, rfl⟩
  rfl

/-- Invariant of the route loop of get_exit_metrics over the processed
prefix: the running best metric is a lower bound of all candidate metrics,
is witnessed by a processed candidate route when the best exit is set, is
the infinite metric when it is not, and every processed candidate ip has a
tracker entry. -/
structure GemInv (inSubnet : Nat → Bool) (processed : List Route)
    (s : GemState) : Prop where
  best_le : ∀ r ∈ processed, inSubnet r.prefixIp = true → s.best_metric ≤ r.metric
  none_max : s.best_exit = none → s.best_metric = u16MAX
  some_wit : ∀ b, s.best_exit = some b →
    ∃ r ∈ processed, inSubnet r.prefixIp = true ∧ r.prefixIp = b ∧
      r.metric = s.best_metric
  le_max : s.best_metric ≤ u16MAX
  map_key : ∀ ip, (∃ r ∈ processed, inSubnet r.prefixIp = true ∧ r.prefixIp = ip) →
    lookupTracker s.exit_map ip ≠ none

/-- The loop invariant at the start of the loop. -/
theorem gemInv_init (inSubnet : Nat → Bool) (m : ExitMap) :
    GemInv inSubnet [] ⟨none, u16MAX, true, u16MAX, u16MAX, m⟩ := by
  refine ⟨?_, ?_, ?_, le_refl _, ?_⟩ <;> simp

/-- One loop step preserves the invariant. -/
theorem gemInv_step (inSubnet : Nat → Bool) (cur tr : Option Nat) (ibm : Nat)
    (processed : List Route) (s : GemState) (r : Route)
    (h : GemInv inSubnet processed s) :
    GemInv inSubnet (processed ++ [r]) (gemStep inSubnet cur tr ibm s r) := by
  have hbe := gemStep_best_exit inSubnet cur tr ibm s r
  have hbm := gemStep_best_metric inSubnet cur tr ibm s r
  have hmap := gemStep_exit_map inSubnet cur tr ibm s r
  by_cases hc : inSubnet r.prefixIp = true ∧ r.metric < s.best_metric
  · refine ⟨?_, ?_, ?_, ?_, ?_⟩
    · intro q hq hsub
      rw [hbm, if_pos hc]
      rcases List.mem_append.mp hq with hq | hq
      · exact le_of_lt (lt_of_lt_of_le hc.2 (h.best_le q hq hsub))
      · simp only [List.mem_singleton] at hq
        subst hq
        exact le_refl _
    · intro hnone
      rw [hbe, if_pos hc] at hnone
      cases hnone
    · intro b hb
      rw [hbe, if_pos hc] at hb
      rw [hbm, if_pos hc]
      injection hb with hb
      exact ⟨r, by simp, hc.1, hb, rfl⟩
    · rw [hbm, if_pos hc]
      exact le_of_lt (lt_of_lt_of_le hc.2 h.le_max)
    · intro ip hip
      rw [hmap, if_pos hc.1]
      rcases hip with ⟨q, hq, hsub, hipq⟩
      rcases List.mem_append.mp hq with hq | hq
      · exact lookup_observe_ne_none _ _ _ _ (h.map_key ip ⟨q, hq, hsub, hipq⟩)
      · simp only [List.mem_singleton] at hq
        subst hq
        subst hipq
        exact lookup_observe_self_ne_none _ _ _
  · refine ⟨?_, ?_, ?_, ?_, ?_⟩
    · intro q hq hsub
      rw [hbm, if_neg hc]
      rcases List.mem_append.mp hq with hq | hq
      · exact h.best_le q hq hsub
      · simp only [List.mem_singleton] at hq
        subst hq
        have : ¬ q.metric < s.best_metric := fun hlt => hc ⟨hsub, hlt⟩
        omega
    · intro hnone
      rw [hbe, if_neg hc] at hnone
      rw [hbm, if_neg hc]
      exact h.none_max hnone
    · intro b hb
      rw [hbe, if_neg hc] at hb
      rw [hbm, if_neg hc]
      rcases h.some_wit b hb with ⟨q, hq, hsub, hpre, hmet⟩
      exact ⟨q, List.mem_append.mpr (Or.inl hq), hsub, hpre, hmet⟩
    · rw [hbm, if_neg hc]
      exact h.le_max
    · intro ip hip
      rw [hmap]
      rcases hip with ⟨q, hq, hsub, hipq⟩
      rcases List.mem_append.mp hq with hq | hq
      · split_ifs with hs
        · exact lookup_observe_ne_none _ _ _ _ (h.map_key ip ⟨q, hq, hsub, hipq⟩)
        · exact h.map_key ip ⟨q, hq, hsub, hipq⟩
      · simp only [List.mem_singleton] at hq
        subst hq
        subst hipq
        rw [if_pos hsub]
        exact lookup_observe_self_ne_none _ _ _

/-- The loop invariant holds after the whole loop. -/
theorem gemInv_foldl (inSubnet : Nat → Bool) (cur tr : Option Nat) (ibm : Nat)
    (routes : List Route) (processed : List Route) (s : GemState)
    (h : GemInv inSubnet processed s) :
    GemInv inSubnet (processed ++ routes)
      (routes.foldl (gemStep inSubnet cur tr ibm) s) := by
  induction routes generalizing processed s with
  | nil => simpa using h
  | cons r rest ih =>
    have h2 := gemInv_step inSubnet cur tr ibm processed s r h
    have h3 := ih (processed ++ [r]) _ h2
    rw [List.foldl_cons]
    simpa [List.append_assoc] using h3

/-- The down flag survives the whole loop when no route can revive the
current exit. -/
theorem gem_foldl_down_preserved (inSubnet : Nat → Bool) (cur tr : Option Nat)
    (ibm : Nat) (routes : List Route) (s : GemState)
    (h : ∀ r ∈ routes, ∀ ip, cur = some ip → inSubnet r.prefixIp = true →
      r.prefixIp = ip → r.metric = u16MAX) :
    (routes.foldl (gemStep inSubnet cur tr ibm) s).current_exit_down =
      s.current_exit_down := by
  induction routes generalizing s with
  | nil => rfl
  | cons r rest ih =>
    rw [List.foldl_cons]
    rw [ih (gemStep inSubnet cur tr ibm s r) fun q hq => h q (by simp [hq])]
    exact gemStep_down_preserved inSubnet cur tr ibm s r
      fun ip hip hin hpre => h r (by simp) ip hip hin hpre

/-- The claim hypothesis of C6 that the selected exit is down: none at all,
absent from the routing table, or advertised only with the infinite
metric. -/
def exitDownCond (inSubnet : Nat → Bool) (routes : List Route)
    (sel : Option Nat) : Prop :=
  match sel with
  | none => True
  | some ip => ∀ r ∈ routes, inSubnet r.prefixIp = true → r.prefixIp = ip →
      r.metric = u16MAX

/-- C6: when the selected exit is down in the claim sense and some candidate
route exists, set_best_exit succeeds in the same call and replaces the whole
selection: selected_id and tracking_exit become the best exit of the tick,
selected_id_metric its metric (the minimum candidate metric of the tick),
selected_id_degradation becomes none, and the metric window and all
ExitTracker entries are cleared.  The window hypothesis on a missing
selection reflects the source invariant that the window only fills while an
exit is selected (otherwise the source panics). -/
theorem C6_failover (inSubnet : Nat → Bool) (routes : List Route)
    (st : SwitcherState)
    (hdown : exitDownCond inSubnet routes st.sel.selected_id)
    (hvec : st.sel.selected_id = none → st.metric_vec = [])
    (hcand : ∃ r ∈ routes, inSubnet r.prefixIp = true ∧ r.metric < u16MAX) :
    ∃ b m st2, set_best_exit inSubnet routes st = .ok b st2 ∧
      st2.sel = ⟨some b, some m, none, some b⟩ ∧
      st2.metric_vec = [] ∧
      (∀ p ∈ st2.exit_map, p.2 = (⟨0, 0, 0⟩ : ExitTracker)) ∧
      (∃ r ∈ routes, inSubnet r.prefixIp = true ∧ r.prefixIp = b ∧ r.metric = m) ∧
      (∀ r ∈ routes, inSubnet r.prefixIp = true → m ≤ r.metric) := by
  obtain ⟨rc, hrc, hsubc, hmetc⟩ := hcand
  have hne : routes ≠ [] := by
    rintro rfl
    exact absurd hrc (List.not_mem_nil rc)
  have hemp : routes.isEmpty = false := by
    cases routes with
    | nil => exact absurd rfl hne
    | cons a l => rfl
  have hdown2 : ∀ r ∈ routes, ∀ ip, st.sel.selected_id = some ip →
      inSubnet r.prefixIp = true → r.prefixIp = ip → r.metric = u16MAX := by
    intro r hr ip hip hin hpre
    have hd := hdown
    rw [hip] at hd
    exact hd r hr hin hpre
  set sf := routes.foldl
    (gemStep inSubnet st.sel.selected_id st.sel.tracking_exit
      (st.sel.selected_id_metric.getD u16MAX))
    (⟨none, u16MAX, true, u16MAX, u16MAX, st.exit_map⟩ : GemState) with hsf
  have hinv : GemInv inSubnet routes sf := by
    rw [hsf]
    simpa using gemInv_foldl inSubnet st.sel.selected_id st.sel.tracking_exit
      (st.sel.selected_id_metric.getD u16MAX) routes [] _
      (gemInv_init inSubnet st.exit_map)
  have hdownf : sf.current_exit_down = true := by
    rw [hsf]
    rw [gem_foldl_down_preserved inSubnet st.sel.selected_id st.sel.tracking_exit
      (st.sel.selected_id_metric.getD u16MAX) routes _
      fun r hr ip hip hin hpre => hdown2 r hr ip hip hin hpre]
  have hblt : sf.best_metric < u16MAX :=
    lt_of_le_of_lt (hinv.best_le rc hrc hsubc) hmetc
  cases hb : sf.best_exit with
  | none =>
    exact absurd (hinv.none_max hb) (by omega)
  | some b =>
  rcases hinv.some_wit b hb with ⟨rb, hrb, hsubb, hprefb, hmetb⟩
  have hgem : get_exit_metrics routes inSubnet st.sel.selected_id
      st.sel.tracking_exit st.sel.selected_id
      (st.sel.selected_id_metric.getD u16MAX) st.exit_map =
      (⟨true, st.sel.selected_id, sf.current_exit_metric, st.sel.tracking_exit,
        sf.tracking_metric, some b, sf.best_metric⟩,
       set_last_added_to_zero sf.exit_map) := by
    simp only [get_exit_metrics]
    rw [← hsf]
    rw [if_neg (by rw [hdownf]; simp)]
    rw [hdownf, hb]
  have hmap2 : lookupTracker (set_last_added_to_zero sf.exit_map) b ≠ none := by
    rw [lookup_set_last_added]
    have hk := hinv.map_key b ⟨rb, hrb, hsubb, hprefb⟩
    cases hlk : lookupTracker sf.exit_map b with
    | none => exact absurd hlk hk
    | some e => simp
  have hupd : ∃ q : ExitSwitchingCode × List Nat × ExitMap,
      update_metric_value
        ⟨true, st.sel.selected_id, sf.current_exit_metric, st.sel.tracking_exit,
         sf.tracking_metric, some b, sf.best_metric⟩ st.metric_vec
        (set_last_added_to_zero sf.exit_map) = some q := by
    cases hsel : st.sel.selected_id with
    | none =>
      have hv := hvec hsel
      exact ⟨(.InitialExitSetup, st.metric_vec, set_last_added_to_zero sf.exit_map),
        by simp [update_metric_value, hv]⟩
    | some cur =>
      cases htr : st.sel.tracking_exit with
      | none =>
        refine ⟨(update_metric_value_eq cur b sf.best_metric st.metric_vec
          (set_last_added_to_zero sf.exit_map)), ?_⟩
        simp [update_metric_value]
      | some t =>
        by_cases hbt : b = t
        · refine ⟨(update_metric_value_eq cur b sf.best_metric st.metric_vec
            (set_last_added_to_zero sf.exit_map)), ?_⟩
          simp [update_metric_value, if_pos hbt, hbt]
        · cases hw : worth_switching_tracking_exit st.metric_vec b
            (set_last_added_to_zero sf.exit_map) with
          | none =>
            exfalso
            unfold worth_switching_tracking_exit at hw
            by_cases hv : st.metric_vec.isEmpty
            · rw [if_pos hv] at hw
              cases hw
            · rw [if_neg hv] at hw
              cases hlk : lookupTracker (set_last_added_to_zero sf.exit_map) b with
              | none => exact hmap2 hlk
              | some e =>
                rw [hlk] at hw
                simp only at hw
                split_ifs at hw
          | some w =>
            cases w with
            | true =>
              exact ⟨(.ResetTracking, [sf.best_metric],
                reset_exit_tracking (set_last_added_to_zero sf.exit_map)),
                by simp [update_metric_value, hbt, hw]⟩
            | false =>
              exact ⟨(update_metric_value_eq cur t sf.tracking_metric st.metric_vec
                (set_last_added_to_zero sf.exit_map)),
                by simp [update_metric_value, hbt, hw]⟩
  obtain ⟨⟨code, vec2, map3⟩, hq⟩ := hupd
  refine ⟨b, sf.best_metric,
    ⟨⟨some b, some sf.best_metric, none, some b⟩, [], reset_exit_tracking map3⟩,
    ?_, rfl, rfl, reset_exit_tracking_cleared map3,
    ⟨rb, hrb, hsubb, hprefb, hmetb⟩,
    fun r hr hsub => hinv.best_le r hr hsub⟩
  simp [set_best_exit, hemp, hgem, hq]

/-- Witness for C6: no exit selected yet, two candidate routes. -/
theorem C6_failover_witness :
    ∃ b m st2,
      set_best_exit (fun _ => true) ([⟨2, 500⟩, ⟨3, 400⟩] : List Route)
          ⟨⟨none, none, none, none⟩, [], []⟩ = .ok b st2 ∧
        st2.sel = ⟨some b, some m, none, some b⟩ ∧
        st2.metric_vec = [] ∧
        (∀ p ∈ st2.exit_map, p.2 = (⟨0, 0, 0⟩ : ExitTracker)) ∧
        (∃ r ∈ ([⟨2, 500⟩, ⟨3, 400⟩] : List Route),
          (fun _ => true) r.prefixIp = true ∧ r.prefixIp = b ∧ r.metric = m) ∧
        (∀ r ∈ ([⟨2, 500⟩, ⟨3, 400⟩] : List Route),
          (fun _ => true) r.prefixIp = true → m ≤ r.metric) :=
  C6_failover (fun _ => true) ([⟨2, 500⟩, ⟨3, 400⟩] : List Route)
    ⟨⟨none, none, none, none⟩, [], []⟩ (by trivial) (fun _ => rfl)
    ⟨⟨3, 400⟩, by simp, rfl, by norm_num [u16MAX]⟩

end RitaEns
